import Mathlib

/-!
Shallow embedding of the data pipeline of `src/dashboard.py` (a Naver search
analytics dashboard) together with proofs about its behaviour.

Modelling conventions:
* a pandas dataframe row is a flat association list `Row` of column/value pairs
  (Python `dict` semantics: assignment replaces an existing key, else appends);
* an HTTP response is an explicit value (status code plus decoded payload), so
  each fetch function takes the remote response as a parameter;
* Python string methods (`str.replace`, `str.strip`) are re-implemented on
  `List Char` with their Python semantics so that everything evaluates;
* Python truthiness of the credential strings (`None` and `""` are falsy) is
  `truthyStr`;
* numeric ratios are `ℚ`.
-/

/-- Python `str.replace` on character lists: replace all non-overlapping
occurrences of `pat` left to right.  Fuel-based so it is structural and the
kernel can evaluate it; fuel `s.length` always suffices for non-empty `pat`. -/
def replaceAux (pat rep : List Char) : Nat → List Char → List Char
  | 0, s => s
  | _ + 1, [] => []
  | n + 1, c :: rest =>
    if pat.isPrefixOf (c :: rest) then rep ++ replaceAux pat rep n ((c :: rest).drop pat.length)
    else c :: replaceAux pat rep n rest

/-- Python `s.replace(pat, rep)` for strings. -/
def pyReplace (s pat rep : String) : String :=
  String.mk (replaceAux pat.data rep.data s.data.length s.data)

/-- Python `s.strip(chars)`: drop characters satisfying `p` from both ends. -/
def pyStrip (p : Char → Bool) (s : String) : String :=
  String.mk (((s.data.dropWhile p).reverse.dropWhile p).reverse)

/-- Python truthiness of an optional string: `None` and `""` are falsy. -/
def truthyStr (o : Option String) : Bool :=
  match o with
  | none => false
  | some s => !(s == "")

/-- A dataframe row: an association list of column name / cell value pairs. -/
abbrev Row := List (String × String)

/-- Read a column of a row (first occurrence, as in a Python dict). -/
def getField (r : Row) (k : String) : Option String :=
  (r.find? (fun p => p.1 == k)).map (fun p => p.2)

/-- Python `row[k] = v` on a dict-like row: replace the value of an existing
key in place, otherwise append the pair at the end. -/
def setField (r : Row) (k v : String) : Row :=
  if (r.find? (fun p => p.1 == k)).isSome then
    r.map (fun p => if p.1 == k then (k, v) else p)
  else r ++ [(k, v)]

/-- `clean_html` from `src/dashboard.py`: `None`/NaN input becomes `""`;
otherwise the literal `<b>`/`</b>` markers are removed and then the entities
`&quot;`, `&lt;`, `&gt;` are decoded, in exactly the source's chain order. -/
def clean_html (text : Option String) : String :=
  match text with
  | none => ""
  | some s =>
    pyReplace (pyReplace (pyReplace (pyReplace (pyReplace
      s "<b>" "") "</b>" "") "&quot;" "\"") "&lt;" "<") "&gt;" ">"

/-- `clean_html` restricted to present strings, for composing it with itself. -/
def cleanHtmlStr (s : String) : String := clean_html (some s)

/-- Response of one GET search call (`shop.json`, `blog.json`,
`cafearticle.json`, `news.json`): HTTP status plus the decoded `items` list. -/
structure SearchResponse where
  status : Nat
  items : List Row
deriving DecidableEq

/-- The per-keyword fan-out loop shared by the four search fetchers: for each
keyword in order, issue the call; on status 200 tag every item with
`search_keyword = kw` and extend the accumulator, otherwise skip silently. -/
def searchFetchLoop (resp : String → SearchResponse) (keywords : List String) : List Row :=
  keywords.foldl
    (fun acc kw =>
      if (resp kw).status = 200 then
        acc ++ (resp kw).items.map (fun item => setField item "search_keyword" kw)
      else acc)
    []

/-- `fetch_realtime_shopping` from `src/dashboard.py`; `resp kw` is the remote
response to the GET for keyword `kw`.  Returns `(table?, error?)`. -/
def fetch_realtime_shopping (cid csec : Option String) (keywords : List String)
    (resp : String → SearchResponse) : Option (List Row) × Option String :=
  if !truthyStr cid || !truthyStr csec then (none, some "인증 키 미설정")
  else
    let all_items := searchFetchLoop resp keywords
    (if all_items.isEmpty then none else some all_items, none)

/-- `fetch_realtime_blog`: identical to the shopping fetcher up to the URL,
which is abstracted into `resp`. -/
def fetch_realtime_blog (cid csec : Option String) (keywords : List String)
    (resp : String → SearchResponse) : Option (List Row) × Option String :=
  if !truthyStr cid || !truthyStr csec then (none, some "인증 키 미설정")
  else
    let all_items := searchFetchLoop resp keywords
    (if all_items.isEmpty then none else some all_items, none)

/-- `fetch_realtime_cafe`: identical to the shopping fetcher up to the URL. -/
def fetch_realtime_cafe (cid csec : Option String) (keywords : List String)
    (resp : String → SearchResponse) : Option (List Row) × Option String :=
  if !truthyStr cid || !truthyStr csec then (none, some "인증 키 미설정")
  else
    let all_items := searchFetchLoop resp keywords
    (if all_items.isEmpty then none else some all_items, none)

/-- `fetch_realtime_news`: identical to the shopping fetcher up to the URL. -/
def fetch_realtime_news (cid csec : Option String) (keywords : List String)
    (resp : String → SearchResponse) : Option (List Row) × Option String :=
  if !truthyStr cid || !truthyStr csec then (none, some "인증 키 미설정")
  else
    let all_items := searchFetchLoop resp keywords
    (if all_items.isEmpty then none else some all_items, none)

/-- One entry of `results` in the datalab trend response. -/
structure TrendGroup where
  title : String
  data : List Row

/-- Response of the POST to `v1/datalab/search`. -/
structure TrendResponse where
  status : Nat
  results : List TrendGroup

/-- `fetch_realtime_trend` from `src/dashboard.py`: one batched call covering
all keywords; on 200 the per-group data rows are tagged with
`keyword = title` and concatenated, otherwise the error names the endpoint
and the status code. -/
def fetch_realtime_trend (cid csec : Option String) (_keywords : List String)
    (_start_date _end_date : String) (_gender : Option String) (_ages : List String)
    (res : TrendResponse) : Option (List Row) × Option String :=
  if !truthyStr cid || !truthyStr csec then (none, some "인증 키가 설정되지 않았습니다.")
  else if res.status = 200 then
    (some (res.results.flatMap (fun r => r.data.map (fun row => setField row "keyword" r.title))),
      none)
  else (none, some ("Trend API Error: " ++ toString res.status))

/-- One entry of `results` in the shopping-insight response; `data` is absent
when the JSON object has no `data` key. -/
structure InsightResult where
  title : String
  data : Option (List Row)
deriving DecidableEq

/-- Decoded shopping-insight JSON payload. -/
structure InsightPayload where
  results : List InsightResult
  errorMessage : Option String
deriving DecidableEq

/-- Response of the POST to `v1/datalab/shopping/category/keywords`;
`payload = none` models a body that fails to decode as JSON. -/
structure InsightResponse where
  status : Nat
  payload : Option InsightPayload
deriving DecidableEq

/-- The `results` binding of `fetch_shopping_insight_trend`:
`response_data.get('results', []) if response_data else []`. -/
def insightResults (res : InsightResponse) : List InsightResult :=
  match res.payload with
  | some p => p.results
  | none => []

/-- `fetch_shopping_insight_trend` from `src/dashboard.py`.  Returns the
triple `(table?, error?, raw decoded payload)`: on 200 an empty or data-less
`results` list gives an empty table with no error, otherwise the tagged
concatenation; on a non-200 status the error message carries the status code
and the decoded payload is preserved for diagnostics. -/
def fetch_shopping_insight_trend (cid csec : Option String) (_cat_id : String)
    (_keywords : List String) (_start_date _end_date : String)
    (res : InsightResponse) : Option (List Row) × Option String × Option InsightPayload :=
  if !truthyStr cid || !truthyStr csec then (none, some "인증 키 미설정", none)
  else
    let response_data := res.payload
    if res.status = 200 then
      let results := insightResults res
      if results.isEmpty then (some [], none, response_data)
      else
        let dfs := results.filterMap (fun r =>
          match r.data with
          | some d =>
            if d.isEmpty then none
            else some (d.map (fun row => setField row "keyword" r.title))
          | none => none)
        if dfs.isEmpty then (some [], none, response_data)
        else (some dfs.flatten, none, response_data)
    else
      let base := "API 오류 (상태코드: " ++ toString res.status ++ ")"
      let error_msg := match response_data with
        | some p =>
          match p.errorMessage with
          | some m => base ++ " - " ++ m
          | none => base
        | none => base
      (none, some error_msg, response_data)

/-- Strip layering applied by `get_api_keys` to each credential value:
`str(v).strip().strip(apostrophe).strip(quote)`. -/
def stripValue (s : String) : String :=
  pyStrip (fun c => c == '"') (pyStrip (fun c => c == Char.ofNat 39) (pyStrip Char.isWhitespace s))

/-- Arithmetic mean of a rational series, as `pandas.Series.mean`. -/
def mean (l : List ℚ) : ℚ := l.sum / l.length

/-- The per-keyword trend-change metric of the shopping-insight tab
(`src/dashboard.py`, `recent_change` block): mean of the last 7 ratios
against the mean of the 7 before them
(`kw_data.tail(14).head(7)`), as a percent change, and `0` unless the
previous mean is positive. -/
def recent_change (ratios : List ℚ) : ℚ :=
  let recent_7 := mean (ratios.drop (ratios.length - 7))
  let prev_7 := mean ((ratios.drop (ratios.length - 14)).take 7)
  if prev_7 > 0 then (recent_7 - prev_7) / prev_7 * 100 else 0

/-- Modelled from the spec: the price-bucket edge ladders of the table
normalizer (the dashboard iteration holding the price-bucket code is not
under `src/`; spec sections 4.5 and 6 give the exact boundaries).  The edge
list is selected by the maximum observed price `m`: one ladder for
`m ≤ 50,000`, one for `m ≤ 100,000`, and one beyond, each ending in `m`. -/
def price_bucket_edges (m : ℚ) : List ℚ :=
  if m ≤ 50000 then [0, 10000, 20000, 30000, 40000, 50000, m]
  else if m ≤ 100000 then [0, 20000, 40000, 60000, 80000, 100000, m]
  else [0, 50000, 100000, 200000, 500000, m]

/-- Modelled from the spec: membership of a price `p` in bucket `i` of the
ladder chosen for maximum price `m` — the half-open interval between
consecutive edges, `edge i < p ≤ edge (i+1)`. -/
def inBucket (m : ℚ) (i : Nat) (p : ℚ) : Prop :=
  i + 1 < (price_bucket_edges m).length ∧
  (price_bucket_edges m).getD i 0 < p ∧ p ≤ (price_bucket_edges m).getD (i + 1) 0

/-- `get_api_keys` from `src/dashboard.py`.  `secrets` is the Streamlit
secret store (`none` = key absent, so that a lookup raises); `env` is the
local `.env` loader (`none` = the file does not exist, otherwise `os.getenv`
after `load_dotenv`).  Step 1 mirrors the `try/except`: when
`NAVER_CLIENT_ID` is present its value is assigned before the secret lookup
can raise, so a missing secret leaves a half-assigned pair behind.  Step 2
re-reads both values from the `.env` file whenever the pair is not fully
truthy and the file exists.  Finally each present value is stripped. -/
def get_api_keys (secrets : String → Option String)
    (env : Option (String → Option String)) : Option String × Option String :=
  let step1 : Option String × Option String :=
    match secrets "NAVER_CLIENT_ID" with
    | none => (none, none)
    | some i =>
      match secrets "NAVER_CLIENT_SECRET" with
      | some s => (some i, some s)
      | none => (some i, none)
  let step2 : Option String × Option String :=
    if !truthyStr step1.1 || !truthyStr step1.2 then
      match env with
      | some getenv => (getenv "NAVER_CLIENT_ID", getenv "NAVER_CLIENT_SECRET")
      | none => step1
    else step1
  (step2.1.map stripValue, step2.2.map stripValue)

/-- QUOTE_MINIMAL of the CSV writer underlying `convert_df`
(`df.to_csv(index=False)`): a cell is quoted iff it contains the delimiter,
the quote character, or a line-terminator character. -/
def needsQuote (s : List Char) : Bool :=
  s.any (fun c => c == ',' || c == '"' || c == '\n' || c == '\r')

/-- Double every quote character inside a quoted CSV cell. -/
def escapeQuotes : List Char → List Char
  | [] => []
  | c :: rest => if c == '"' then '"' :: '"' :: escapeQuotes rest else c :: escapeQuotes rest

/-- Render one CSV cell with minimal quoting. -/
def csvCell (s : List Char) : List Char :=
  if needsQuote s then '"' :: (escapeQuotes s ++ ['"']) else s

/-- Render one CSV record: cells joined with the comma delimiter. -/
def csvLine : List (List Char) → List Char
  | [] => []
  | [c] => csvCell c
  | c :: rest => csvCell c ++ ',' :: csvLine rest

/-- Render a table: one line-terminated record per row. -/
def csvText (t : List (List (List Char))) : List Char :=
  (t.map (fun r => csvLine r ++ ['\n'])).flatten

/-- The byte-order mark prepended by the `utf-8-sig` encoding. -/
def bomChar : Char := '\uFEFF'

/-- `convert_df` from `src/dashboard.py`:
`df.to_csv(index=False).encode('utf-8-sig')` — the table (modelled as its
header and its rows of rendered string cells) as CSV text with a leading
byte-order mark. -/
def convert_df (header : List (List Char)) (rows : List (List (List Char))) : List Char :=
  bomChar :: csvText (header :: rows)

/-- Is this character a cell/record delimiter of the CSV reader. -/
def isDelim (c : Char) : Bool := c == ',' || c == '\n'

/-- CSV reader, quoted-cell body: ends at a quote not followed by a second
quote; a doubled quote is one literal quote.  Fuel-based and structural. -/
def parseQuoted : Nat → List Char → List Char × List Char
  | 0, s => ([], s)
  | _ + 1, [] => ([], [])
  | n + 1, c :: rest =>
    if c == '"' then
      match rest with
      | [] => ([], [])
      | d :: rest2 =>
        if d == '"' then
          let (content, rem) := parseQuoted n rest2
          ('"' :: content, rem)
        else ([], rest)
    else
      let (content, rem) := parseQuoted n rest
      (c :: content, rem)

/-- CSV reader, one cell: a leading quote starts a quoted cell, otherwise
the cell runs to the next delimiter. -/
def parseCell (n : Nat) (s : List Char) : List Char × List Char :=
  match s with
  | [] => ([], [])
  | c :: rest =>
    if c == '"' then parseQuoted n rest
    else (s.takeWhile (fun c => !isDelim c), s.dropWhile (fun c => !isDelim c))

/-- CSV reader, one record up to and including its line terminator. -/
def parseRecord : Nat → List Char → List (List Char) × List Char
  | 0, s => ([], s)
  | n + 1, s =>
    let (cell, r) := parseCell (n + 1) s
    match r with
    | [] => ([cell], [])
    | c :: r2 =>
      if c == ',' then
        let (cells, rest) := parseRecord n r2
        (cell :: cells, rest)
      else ([cell], r2)

/-- CSV reader, all records. -/
def parseRows : Nat → List Char → List (List (List Char))
  | 0, _ => []
  | _ + 1, [] => []
  | n + 1, s =>
    let (record, rest) := parseRecord (n + 1) s
    record :: parseRows n rest

/-- CSV reader entry point: strip a leading byte-order mark (as the
`utf-8-sig` decoding does) and parse the records. -/
def parseCsv (s : List Char) : List (List (List Char)) :=
  match s with
  | [] => []
  | c :: rest => if c == bomChar then parseRows rest.length rest else parseRows s.length s

/-- Well-formed trailing context for one CSV cell: nothing, or a delimiter. -/
def restOk (rest : List Char) : Prop :=
  match rest with
  | [] => True
  | c :: _ => isDelim c = true

/-- Claim C5: `clean_html` maps missing input to `""` without raising, removes
the literal `<b>`/`</b>` markers and decodes `&quot;`, `&lt;`, `&gt;`; in
particular on `"<b>Sale</b> &quot;Today&quot;"` it yields `"Sale \"Today\""`. -/
theorem clean_html_spec :
    clean_html none = "" ∧
    clean_html (some "<b>Sale</b> &quot;Today&quot;") = "Sale \"Today\"" ∧
    clean_html (some "<b>x</b>") = "x" ∧
    clean_html (some "&quot;") = "\"" ∧
    clean_html (some "&lt;") = "<" ∧
    clean_html (some "&gt;") = ">" := by
  refine ⟨rfl, ?_, ?_, ?_, ?_, ?_⟩ <;> decide

/-- Claim C10: `clean_html` is not idempotent — the tag markers are removed
before the entities are decoded, so the entity-encoded tag `&lt;b&gt;` comes
out as the literal `<b>`, which a second pass would remove. -/
theorem clean_html_not_idempotent :
    cleanHtmlStr "&lt;b&gt;" = "<b>" ∧
    cleanHtmlStr (cleanHtmlStr "&lt;b&gt;") ≠ cleanHtmlStr "&lt;b&gt;" := by
  refine ⟨by decide, by decide⟩

theorem find?_map_replace (t : Row) (k v : String) :
    List.find? (fun p => p.1 == k) (t.map (fun p => if p.1 == k then (k, v) else p))
      = (List.find? (fun p => p.1 == k) t).map (fun p => if p.1 == k then (k, v) else p) := by
  induction t with
  | nil => rfl
  | cons q t ih =>
    by_cases hq : (q.1 == k) = true
    · have hqe : q.1 = k := by simpa using hq
      rw [List.map_cons, List.find?_cons, List.find?_cons, hq]
      simp [hqe]
    · have hq' : (q.1 == k) = false := by simpa using hq
      rw [List.map_cons, List.find?_cons, List.find?_cons, hq']
      simpa [hq'] using ih

/-- Writing a column of a dict-like row and reading it back yields the
written value. -/
theorem getField_setField (r : Row) (k v : String) :
    getField (setField r k v) k = some v := by
  unfold getField setField
  by_cases h : (r.find? (fun p => p.1 == k)).isSome
  · rw [if_pos h, find?_map_replace r k v]
    obtain ⟨p0, hp0⟩ := Option.isSome_iff_exists.mp h
    have hpred := List.find?_some hp0
    have hk : (p0.1 == k) = true := hpred
    rw [hp0]
    have hke : p0.1 = k := by simpa using hk
    simp [hke]
  · rw [if_neg h]
    rw [List.find?_append]
    have h0 : r.find? (fun p => p.1 == k) = none := by
      cases hr : r.find? (fun p => p.1 == k) <;> simp [hr] at h ⊢
    simp [h0, List.find?]

/-- The accumulator loop of the search fetchers is the ordered concatenation,
over the keyword list, of the tagged items of the succeeding calls. -/
theorem searchFetchLoop_eq (resp : String → SearchResponse) (ks : List String) :
    searchFetchLoop resp ks =
      ks.flatMap (fun kw =>
        if (resp kw).status = 200 then
          (resp kw).items.map (fun item => setField item "search_keyword" kw)
        else []) := by
  have key : ∀ (l : List String) (a : List Row),
      l.foldl (fun acc kw =>
        if (resp kw).status = 200 then
          acc ++ (resp kw).items.map (fun item => setField item "search_keyword" kw)
        else acc) a
      = a ++ l.flatMap (fun kw =>
          if (resp kw).status = 200 then
            (resp kw).items.map (fun item => setField item "search_keyword" kw)
          else []) := by
    intro l
    induction l with
    | nil => intro a; simp
    | cons k t ih =>
      intro a
      simp only [List.foldl_cons, List.flatMap_cons]
      by_cases hs : (resp k).status = 200
      · rw [if_pos hs, if_pos hs, ih, List.append_assoc]
      · rw [if_neg hs, if_neg hs, ih]
        simp
  simpa [searchFetchLoop] using key ks []

/-- Claim C1: with credentials present, the row list of the multi-keyword
fetch is exactly the concatenation, in keyword-list order, of the item rows
of the keywords whose call returned 200, each item tagged with
`search_keyword` equal to its origin keyword; failed keywords contribute
nothing and do not abort the aggregation; every tagged row reads back its
origin keyword; and the blog, cafe and news fetchers are the same function. -/
theorem fetch_multi_keyword_aggregation (cid csec : Option String)
    (ks : List String) (resp : String → SearchResponse)
    (hcid : truthyStr cid = true) (hcsec : truthyStr csec = true) :
    ((fetch_realtime_shopping cid csec ks resp).1.getD []) =
      ks.flatMap (fun kw =>
        if (resp kw).status = 200 then
          (resp kw).items.map (fun item => setField item "search_keyword" kw)
        else []) ∧
    (fetch_realtime_shopping cid csec ks resp).2 = none ∧
    (∀ item kw, getField (setField item "search_keyword" kw) "search_keyword" = some kw) ∧
    fetch_realtime_blog = fetch_realtime_shopping ∧
    fetch_realtime_cafe = fetch_realtime_shopping ∧
    fetch_realtime_news = fetch_realtime_shopping := by
  refine ⟨?_, ?_, fun item kw => getField_setField item "search_keyword" kw, rfl, rfl, rfl⟩
  · rw [← searchFetchLoop_eq]
    simp only [fetch_realtime_shopping, hcid, hcsec, Bool.not_true, Bool.or_self, Bool.false_or]
    by_cases he : (searchFetchLoop resp ks).isEmpty
    · simp [he, List.isEmpty_iff.mp he]
    · simp [he]
  · simp [fetch_realtime_shopping, hcid, hcsec]

theorem fetch_multi_keyword_aggregation_witness :
    ((fetch_realtime_shopping (some "id") (some "pw") ["a", "b", "c"]
        (fun kw =>
          if kw == "b" then ⟨500, [[("title", "bad")]]⟩
          else ⟨200, [[("title", "t-" ++ kw)]]⟩)).1.getD []) =
      [[("title", "t-a"), ("search_keyword", "a")],
       [("title", "t-c"), ("search_keyword", "c")]] := by
  have h := fetch_multi_keyword_aggregation (some "id") (some "pw") ["a", "b", "c"]
    (fun kw =>
      if kw == "b" then ⟨500, [[("title", "bad")]]⟩
      else ⟨200, [[("title", "t-" ++ kw)]]⟩) (by decide) (by decide)
  rw [h.1]
  decide

/-- Claim C8 (as stated, confirmed): with credentials present, if every
keyword's call fails then the aggregating fetchers return `(none, none)` —
no table and no error message. -/
theorem fetch_multi_all_failed (cid csec : Option String)
    (ks : List String) (resp : String → SearchResponse)
    (hcid : truthyStr cid = true) (hcsec : truthyStr csec = true)
    (hfail : ∀ kw ∈ ks, (resp kw).status ≠ 200) :
    fetch_realtime_shopping cid csec ks resp = (none, none) ∧
    fetch_realtime_blog cid csec ks resp = (none, none) ∧
    fetch_realtime_cafe cid csec ks resp = (none, none) ∧
    fetch_realtime_news cid csec ks resp = (none, none) := by
  have hloop : searchFetchLoop resp ks = [] := by
    rw [searchFetchLoop_eq]
    apply List.flatMap_eq_nil_iff.mpr
    intro kw hkw
    rw [if_neg (hfail kw hkw)]
  refine ⟨?_, ?_, ?_, ?_⟩ <;>
    simp [fetch_realtime_shopping, fetch_realtime_blog, fetch_realtime_cafe,
      fetch_realtime_news, hcid, hcsec, hloop]

theorem fetch_multi_all_failed_witness :
    fetch_realtime_shopping (some "id") (some "pw") ["a", "b"]
      (fun _ => ⟨500, [[("title", "x")]]⟩) = (none, none) :=
  (fetch_multi_all_failed (some "id") (some "pw") ["a", "b"]
    (fun _ => ⟨500, [[("title", "x")]]⟩) (by decide) (by decide)
    (by intro kw _; simp)).1

/-- Claim C2 fails on the code: the shopping fetcher (and identically the
blog/cafe/news fetchers) does not surface a non-success HTTP status as an
error message at all — with valid credentials and a 404 on the only keyword
it returns `(none, none)`, not `(none, some msg)`. -/
theorem fetch_error_status_counterexample :
    fetch_realtime_shopping (some "id") (some "pw") ["kw"]
      (fun _ => ⟨404, []⟩) = (none, none) := by
  decide

/-- Claim C2 amended: only the trend fetcher returns `(none, msg)` with the
endpoint name and status code in `msg`; the shopping-insight fetcher
returns no table and a message carrying the status code; the four
per-keyword search fetchers never attach an error message for a failed
HTTP call (they skip the keyword silently). -/
theorem fetch_error_status_policy (cid csec : Option String)
    (hcid : truthyStr cid = true) (hcsec : truthyStr csec = true) :
    (∀ ks sd ed g a (res : TrendResponse), res.status ≠ 200 →
      fetch_realtime_trend cid csec ks sd ed g a res =
        (none, some ("Trend API Error: " ++ toString res.status))) ∧
    (∀ cat ks sd ed (res : InsightResponse), res.status ≠ 200 →
      (fetch_shopping_insight_trend cid csec cat ks sd ed res).1 = none ∧
      ∃ tail, (fetch_shopping_insight_trend cid csec cat ks sd ed res).2.1 =
        some ("API 오류 (상태코드: " ++ toString res.status ++ ")" ++ tail)) ∧
    (∀ ks resp,
      (fetch_realtime_shopping cid csec ks resp).2 = none ∧
      (fetch_realtime_blog cid csec ks resp).2 = none ∧
      (fetch_realtime_cafe cid csec ks resp).2 = none ∧
      (fetch_realtime_news cid csec ks resp).2 = none) := by
  refine ⟨?_, ?_, ?_⟩
  · intro ks sd ed g a res hs
    simp [fetch_realtime_trend, hcid, hcsec, hs]
  · intro cat ks sd ed res hs
    constructor
    · simp [fetch_shopping_insight_trend, hcid, hcsec, hs]
    · cases hp : res.payload with
      | none =>
        refine ⟨"", ?_⟩
        simp [fetch_shopping_insight_trend, hcid, hcsec, hs, hp]
      | some p =>
        cases hm : p.errorMessage with
        | none =>
          refine ⟨"", ?_⟩
          simp [fetch_shopping_insight_trend, hcid, hcsec, hs, hp, hm]
        | some m =>
          refine ⟨" - " ++ m, ?_⟩
          simp [fetch_shopping_insight_trend, hcid, hcsec, hs, hp, hm]
          exact String.append_assoc _ _ _
  · intro ks resp
    refine ⟨?_, ?_, ?_, ?_⟩ <;>
      simp [fetch_realtime_shopping, fetch_realtime_blog, fetch_realtime_cafe,
        fetch_realtime_news, hcid, hcsec]

theorem fetch_error_status_policy_witness :
    fetch_realtime_trend (some "id") (some "pw") ["k"] "2024-01-01" "2024-12-31"
      none [] ⟨500, []⟩ = (none, some "Trend API Error: 500") := by
  have h := (fetch_error_status_policy (some "id") (some "pw")
    (by decide) (by decide)).1 ["k"] "2024-01-01" "2024-12-31" none [] ⟨500, []⟩
    (by decide)
  simpa using h

theorem mean_nonneg (l : List ℚ) (h : ∀ x ∈ l, 0 ≤ x) : 0 ≤ mean l :=
  div_nonneg (List.sum_nonneg h) (Nat.cast_nonneg l.length)

/-- Claim C4: on a ratio series with at least 14 observations the
trend-change metric is the percent change of the mean of the last 7 values
against the mean of the preceding 7, and it is 0 when the preceding mean is
0 (no division-by-zero failure: in the model division by 0 is total). -/
theorem recent_change_spec (ratios : List ℚ) (_hlen : 14 ≤ ratios.length)
    (hpos : ∀ x ∈ ratios, 0 ≤ x) :
    recent_change ratios =
      (if mean ((ratios.drop (ratios.length - 14)).take 7) = 0 then 0
       else
        (mean (ratios.drop (ratios.length - 7)) -
            mean ((ratios.drop (ratios.length - 14)).take 7)) /
          mean ((ratios.drop (ratios.length - 14)).take 7) * 100) := by
  have hprev : 0 ≤ mean ((ratios.drop (ratios.length - 14)).take 7) :=
    mean_nonneg _ (fun x hx => hpos x (List.mem_of_mem_drop (List.mem_of_mem_take hx)))
  simp only [recent_change]
  by_cases h0 : mean ((ratios.drop (ratios.length - 14)).take 7) = 0
  · rw [if_neg (by rw [h0]; exact lt_irrefl 0), if_pos h0]
  · rw [if_pos (lt_of_le_of_ne hprev (Ne.symm h0)), if_neg h0]

theorem recent_change_spec_witness :
    recent_change [10, 10, 10, 10, 10, 10, 10, 20, 20, 20, 20, 20, 20, 20] = 100 := by
  have h := recent_change_spec [10, 10, 10, 10, 10, 10, 10, 20, 20, 20, 20, 20, 20, 20]
    (by norm_num) (by intro x hx; fin_cases hx <;> norm_num)
  rw [h]
  norm_num [mean]

/-- Claim C3: with credentials present the shopping-insight fetcher
distinguishes exactly three outcomes — 200 with at least one keyword
carrying data gives a non-empty table and no error; 200 with an empty or
data-less `results` list gives an empty table and no error; a non-200
status gives no table, a message carrying the status code, and the raw
decoded payload preserved.  The payload is preserved in all outcomes. -/
theorem insight_three_outcomes (cid csec : Option String) (cat : String)
    (ks : List String) (sd ed : String) (res : InsightResponse)
    (hcid : truthyStr cid = true) (hcsec : truthyStr csec = true) :
    (res.status = 200 →
      (∃ r ∈ insightResults res, ∃ d, r.data = some d ∧ d ≠ []) →
      ∃ t, t ≠ [] ∧
        fetch_shopping_insight_trend cid csec cat ks sd ed res = (some t, none, res.payload)) ∧
    (res.status = 200 →
      (∀ r ∈ insightResults res, r.data = none ∨ r.data = some []) →
      fetch_shopping_insight_trend cid csec cat ks sd ed res = (some [], none, res.payload)) ∧
    (res.status ≠ 200 →
      ∃ tail,
        fetch_shopping_insight_trend cid csec cat ks sd ed res =
          (none, some ("API 오류 (상태코드: " ++ toString res.status ++ ")" ++ tail),
            res.payload)) := by
  refine ⟨?_, ?_, ?_⟩
  · intro hs ⟨r, hr, d, hd, hdne⟩
    have hres : (insightResults res).isEmpty = false := by
      cases hx : insightResults res with
      | nil => rw [hx] at hr; cases hr
      | cons a l => rfl
    set dfs := (insightResults res).filterMap (fun r =>
      match r.data with
      | some d =>
        if d.isEmpty then none
        else some (d.map (fun row => setField row "keyword" r.title))
      | none => none) with hdfs
    have hmem : (d.map (fun row => setField row "keyword" r.title)) ∈ dfs := by
      rw [hdfs]
      apply List.mem_filterMap.mpr
      refine ⟨r, hr, ?_⟩
      rw [hd]
      have hde : d.isEmpty = false := by simpa [List.isEmpty_iff] using hdne
      simp [hde]
    have hdfsne : dfs.isEmpty = false := by
      cases hx : dfs with
      | nil => rw [hx] at hmem; cases hmem
      | cons a l => rfl
    refine ⟨dfs.flatten, ?_, ?_⟩
    · intro hflat
      have := (List.flatten_eq_nil_iff.mp hflat) _ hmem
      exact hdne (by simpa using this)
    · simp only [fetch_shopping_insight_trend, hcid, hcsec, Bool.not_true, Bool.or_self,
        Bool.false_or, Bool.false_eq_true, if_false, if_pos hs, hres, ← hdfs, hdfsne]
  · intro hs hall
    have hdfs : (insightResults res).filterMap (fun r =>
        match r.data with
        | some d =>
          if d.isEmpty then none
          else some (d.map (fun row => setField row "keyword" r.title))
        | none => none) = [] := by
      apply List.filterMap_eq_nil_iff.mpr
      intro r hr
      rcases hall r hr with h | h <;> simp [h]
    cases hres : (insightResults res).isEmpty with
    | true =>
      simp only [fetch_shopping_insight_trend, hcid, hcsec, Bool.not_true, Bool.or_self,
        Bool.false_eq_true, if_false, if_pos hs, hres, if_true]
    | false =>
      simp only [fetch_shopping_insight_trend, hcid, hcsec, Bool.not_true, Bool.or_self,
        Bool.false_eq_true, if_false, if_pos hs, hres, hdfs]
      simp
  · intro hs
    cases hp : res.payload with
    | none =>
      refine ⟨"", ?_⟩
      simp [fetch_shopping_insight_trend, hcid, hcsec, hs, hp]
    | some p =>
      cases hm : p.errorMessage with
      | none =>
        refine ⟨"", ?_⟩
        simp [fetch_shopping_insight_trend, hcid, hcsec, hs, hp, hm]
      | some m =>
        refine ⟨" - " ++ m, ?_⟩
        simp [fetch_shopping_insight_trend, hcid, hcsec, hs, hp, hm]
        exact String.append_assoc _ _ _

theorem insight_three_outcomes_witness :
    ∃ t, t ≠ [] ∧
      fetch_shopping_insight_trend (some "id") (some "pw") "50000008" ["k"]
        "2024-01-01" "2024-01-14"
        ⟨200, some ⟨[⟨"k", some [[("period", "2024-01-01"), ("ratio", "50")]]⟩], none⟩⟩ =
      (some t, none,
        some ⟨[⟨"k", some [[("period", "2024-01-01"), ("ratio", "50")]]⟩], none⟩) := by
  exact (insight_three_outcomes (some "id") (some "pw") "50000008" ["k"]
    "2024-01-01" "2024-01-14"
    ⟨200, some ⟨[⟨"k", some [[("period", "2024-01-01"), ("ratio", "50")]]⟩], none⟩⟩
    (by decide) (by decide)).1 rfl
    ⟨⟨"k", some [[("period", "2024-01-01"), ("ratio", "50")]]⟩, by decide,
      [[("period", "2024-01-01"), ("ratio", "50")]], rfl, by decide⟩

theorem truthyStr_map_strip (o : Option String) (h : truthyStr o = false) :
    truthyStr (o.map stripValue) = false := by
  cases o with
  | none => rfl
  | some s =>
    have hs : s = "" := by simpa [truthyStr] using h
    subst hs
    rfl

theorem truthyStr_of_map_strip (o : Option String)
    (h : truthyStr (o.map stripValue) = true) : truthyStr o = true := by
  by_contra hne
  rw [truthyStr_map_strip o (Bool.not_eq_true _ ▸ hne)] at h
  cases h

/-- Claim C6 fails on the code: when the secret store is empty and the
`.env` file defines only `NAVER_CLIENT_ID`, `get_api_keys` returns
`(some "x", none)` — a pair with exactly one non-empty component — rather
than `(none, none)`. -/
theorem get_api_keys_partial_counterexample :
    get_api_keys (fun _ => none)
        (some (fun k => if k == "NAVER_CLIENT_ID" then some "x" else none)) =
      (some "x", none) ∧
    ((some "x", (none : Option String)) ≠ ((none : Option String), (none : Option String))) := by
  exact ⟨rfl, by decide⟩

/-- Claim C6 amended: the two components are resolved independently, so the
resolver can return a pair with exactly one non-`None` component; but
whenever neither source yields both values as non-empty strings, the
returned pair is never fully truthy, so remote calls stay disabled (every
fetcher requires both components truthy). -/
theorem get_api_keys_missing_credentials (secrets : String → Option String)
    (env : Option (String → Option String))
    (h1 : ¬(truthyStr (secrets "NAVER_CLIENT_ID") = true ∧
            truthyStr (secrets "NAVER_CLIENT_SECRET") = true))
    (h2 : ∀ getenv, env = some getenv →
      ¬(truthyStr (getenv "NAVER_CLIENT_ID") = true ∧
        truthyStr (getenv "NAVER_CLIENT_SECRET") = true)) :
    ¬(truthyStr (get_api_keys secrets env).1 = true ∧
      truthyStr (get_api_keys secrets env).2 = true) := by
  rintro ⟨ha, hb⟩
  cases hid : secrets "NAVER_CLIENT_ID" with
  | none =>
    cases henv : env with
    | none =>
      simp only [get_api_keys, hid, henv, truthyStr, Bool.not_false, Bool.true_or,
        if_true, Option.map_none] at ha
      exact absurd ha (by decide)
    | some getenv =>
      subst henv
      simp only [get_api_keys, hid, truthyStr, Bool.not_false, Bool.true_or, if_true] at ha hb
      exact h2 getenv rfl
        ⟨truthyStr_of_map_strip _ ha, truthyStr_of_map_strip _ hb⟩
  | some i =>
    cases hsec : secrets "NAVER_CLIENT_SECRET" with
    | none =>
      have hcond : (!truthyStr (some i) || !truthyStr (none : Option String)) = true := by
        simp [truthyStr]
      cases henv : env with
      | none =>
        simp only [get_api_keys, hid, hsec, henv, hcond, if_true, Option.map_none] at hb
        exact absurd hb (by decide)
      | some getenv =>
        subst henv
        simp only [get_api_keys, hid, hsec, hcond, if_true] at ha hb
        exact h2 getenv rfl
          ⟨truthyStr_of_map_strip _ ha, truthyStr_of_map_strip _ hb⟩
    | some sv =>
      by_cases hboth : truthyStr (some i) = true ∧ truthyStr (some sv) = true
      · exact h1 ⟨by rw [hid]; exact hboth.1, by rw [hsec]; exact hboth.2⟩
      · have hcond : (!truthyStr (some i) || !truthyStr (some sv)) = true := by
          rcases Decidable.not_and_iff_or_not.mp hboth with h | h <;>
            simp [Bool.not_eq_true] at h <;> simp [h]
        cases henv : env with
        | none =>
          simp only [get_api_keys, hid, hsec, henv, hcond, if_true] at ha hb
          exact hboth ⟨truthyStr_of_map_strip _ ha, truthyStr_of_map_strip _ hb⟩
        | some getenv =>
          subst henv
          simp only [get_api_keys, hid, hsec, hcond, if_true] at ha hb
          exact h2 getenv rfl
            ⟨truthyStr_of_map_strip _ ha, truthyStr_of_map_strip _ hb⟩

theorem get_api_keys_missing_credentials_witness :
    ¬(truthyStr (get_api_keys (fun _ => none)
        (some (fun k => if k == "NAVER_CLIENT_ID" then some "x" else none))).1 = true ∧
      truthyStr (get_api_keys (fun _ => none)
        (some (fun k => if k == "NAVER_CLIENT_ID" then some "x" else none))).2 = true) := by
  exact get_api_keys_missing_credentials _ _ (by decide)
    (fun getenv hg => by cases hg; decide)

theorem bucket_unique_ladderA (m p : ℚ) (hpm : p ≤ m) (h1 : m ≤ 50000)
    (hedges : price_bucket_edges m = [0, 10000, 20000, 30000, 40000, 50000, m]) :
    ∀ k : Nat, inBucket m k p → ∀ j, inBucket m j p → j = k := by
  intro k hk j hj
  obtain ⟨hl, hlo, hhi⟩ := hj
  obtain ⟨hl', hlo', hhi'⟩ := hk
  rw [hedges] at hl hlo hhi hl' hlo' hhi'
  simp at hl hl'
  have hj5 : j ≤ 5 := by omega
  have hk5 : k ≤ 5 := by omega
  interval_cases j <;> interval_cases k <;>
    simp [List.getD] at hlo hhi hlo' hhi' <;> linarith

theorem bucket_exists_unique_ladderA (m p : ℚ) (hp : 0 < p) (hpm : p ≤ m)
    (h1 : m ≤ 50000) : ∃! i, inBucket m i p := by
  have hedges : price_bucket_edges m = [0, 10000, 20000, 30000, 40000, 50000, m] := by
    simp [price_bucket_edges, h1]
  have huniq := bucket_unique_ladderA m p hpm h1 hedges
  by_cases c1 : p ≤ 10000
  · have hmem : inBucket m 0 p := by
      refine ⟨by rw [hedges]; norm_num, ?_, ?_⟩ <;> rw [hedges] <;> simp [List.getD] <;> linarith
    exact ⟨0, hmem, fun j hj => huniq 0 hmem j hj⟩
  · by_cases c2 : p ≤ 20000
    · have hmem : inBucket m 1 p := by
        refine ⟨by rw [hedges]; norm_num, ?_, ?_⟩ <;> rw [hedges] <;> simp [List.getD] <;> linarith
      exact ⟨1, hmem, fun j hj => huniq 1 hmem j hj⟩
    · by_cases c3 : p ≤ 30000
      · have hmem : inBucket m 2 p := by
          refine ⟨by rw [hedges]; norm_num, ?_, ?_⟩ <;> rw [hedges] <;> simp [List.getD] <;> linarith
        exact ⟨2, hmem, fun j hj => huniq 2 hmem j hj⟩
      · by_cases c4 : p ≤ 40000
        · have hmem : inBucket m 3 p := by
            refine ⟨by rw [hedges]; norm_num, ?_, ?_⟩ <;> rw [hedges] <;> simp [List.getD] <;> linarith
          exact ⟨3, hmem, fun j hj => huniq 3 hmem j hj⟩
        · have hmem : inBucket m 4 p := by
            refine ⟨by rw [hedges]; norm_num, ?_, ?_⟩ <;> rw [hedges] <;> simp [List.getD] <;> linarith
          exact ⟨4, hmem, fun j hj => huniq 4 hmem j hj⟩

theorem bucket_unique_ladderB (m p : ℚ) (hpm : p ≤ m) (h2 : m ≤ 100000)
    (hedges : price_bucket_edges m = [0, 20000, 40000, 60000, 80000, 100000, m]) :
    ∀ k : Nat, inBucket m k p → ∀ j, inBucket m j p → j = k := by
  intro k hk j hj
  obtain ⟨hl, hlo, hhi⟩ := hj
  obtain ⟨hl', hlo', hhi'⟩ := hk
  rw [hedges] at hl hlo hhi hl' hlo' hhi'
  simp at hl hl'
  have hj5 : j ≤ 5 := by omega
  have hk5 : k ≤ 5 := by omega
  interval_cases j <;> interval_cases k <;>
    simp [List.getD] at hlo hhi hlo' hhi' <;> linarith

theorem bucket_exists_unique_ladderB (m p : ℚ) (hp : 0 < p) (hpm : p ≤ m)
    (h1 : ¬(m ≤ 50000)) (h2 : m ≤ 100000) : ∃! i, inBucket m i p := by
  have hedges : price_bucket_edges m = [0, 20000, 40000, 60000, 80000, 100000, m] := by
    simp [price_bucket_edges, h1, h2]
  have huniq := bucket_unique_ladderB m p hpm h2 hedges
  by_cases c1 : p ≤ 20000
  · have hmem : inBucket m 0 p := by
      refine ⟨by rw [hedges]; norm_num, ?_, ?_⟩ <;> rw [hedges] <;> simp [List.getD] <;> linarith
    exact ⟨0, hmem, fun j hj => huniq 0 hmem j hj⟩
  · by_cases c2 : p ≤ 40000
    · have hmem : inBucket m 1 p := by
        refine ⟨by rw [hedges]; norm_num, ?_, ?_⟩ <;> rw [hedges] <;> simp [List.getD] <;> linarith
      exact ⟨1, hmem, fun j hj => huniq 1 hmem j hj⟩
    · by_cases c3 : p ≤ 60000
      · have hmem : inBucket m 2 p := by
          refine ⟨by rw [hedges]; norm_num, ?_, ?_⟩ <;> rw [hedges] <;> simp [List.getD] <;> linarith
        exact ⟨2, hmem, fun j hj => huniq 2 hmem j hj⟩
      · by_cases c4 : p ≤ 80000
        · have hmem : inBucket m 3 p := by
            refine ⟨by rw [hedges]; norm_num, ?_, ?_⟩ <;> rw [hedges] <;> simp [List.getD] <;> linarith
          exact ⟨3, hmem, fun j hj => huniq 3 hmem j hj⟩
        · have hmem : inBucket m 4 p := by
            refine ⟨by rw [hedges]; norm_num, ?_, ?_⟩ <;> rw [hedges] <;> simp [List.getD] <;> linarith
          exact ⟨4, hmem, fun j hj => huniq 4 hmem j hj⟩

theorem bucket_unique_ladderC (m p : ℚ) (_hpm : p ≤ m)
    (hedges : price_bucket_edges m = [0, 50000, 100000, 200000, 500000, m]) :
    ∀ k : Nat, inBucket m k p → ∀ j, inBucket m j p → j = k := by
  intro k hk j hj
  obtain ⟨hl, hlo, hhi⟩ := hj
  obtain ⟨hl', hlo', hhi'⟩ := hk
  rw [hedges] at hl hlo hhi hl' hlo' hhi'
  simp at hl hl'
  have hj4 : j ≤ 4 := by omega
  have hk4 : k ≤ 4 := by omega
  interval_cases j <;> interval_cases k <;>
    simp [List.getD] at hlo hhi hlo' hhi' <;> linarith

theorem bucket_exists_unique_ladderC (m p : ℚ) (hp : 0 < p) (hpm : p ≤ m)
    (h2 : ¬(m ≤ 100000)) : ∃! i, inBucket m i p := by
  have h1 : ¬(m ≤ 50000) := fun h => h2 (h.trans (by norm_num : (50000 : ℚ) ≤ 100000))
  have hedges : price_bucket_edges m = [0, 50000, 100000, 200000, 500000, m] := by
    simp [price_bucket_edges, h1, h2]
  have huniq := bucket_unique_ladderC m p hpm hedges
  by_cases c1 : p ≤ 50000
  · have hmem : inBucket m 0 p := by
      refine ⟨by rw [hedges]; norm_num, ?_, ?_⟩ <;> rw [hedges] <;> simp [List.getD] <;> linarith
    exact ⟨0, hmem, fun j hj => huniq 0 hmem j hj⟩
  · by_cases c2 : p ≤ 100000
    · have hmem : inBucket m 1 p := by
        refine ⟨by rw [hedges]; norm_num, ?_, ?_⟩ <;> rw [hedges] <;> simp [List.getD] <;> linarith
      exact ⟨1, hmem, fun j hj => huniq 1 hmem j hj⟩
    · by_cases c3 : p ≤ 200000
      · have hmem : inBucket m 2 p := by
          refine ⟨by rw [hedges]; norm_num, ?_, ?_⟩ <;> rw [hedges] <;> simp [List.getD] <;> linarith
        exact ⟨2, hmem, fun j hj => huniq 2 hmem j hj⟩
      · by_cases c4 : p ≤ 500000
        · have hmem : inBucket m 3 p := by
            refine ⟨by rw [hedges]; norm_num, ?_, ?_⟩ <;> rw [hedges] <;> simp [List.getD] <;> linarith
          exact ⟨3, hmem, fun j hj => huniq 3 hmem j hj⟩
        · have hmem : inBucket m 4 p := by
            refine ⟨by rw [hedges]; norm_num, ?_, ?_⟩ <;> rw [hedges] <;> simp [List.getD] <;> linarith
          exact ⟨4, hmem, fun j hj => huniq 4 hmem j hj⟩

/-- Claim C7 (spec-modelled): the bucket edges are a pure function of the
observed maximum price, following the three ladders of the spec, and for
every positive price `p ≤ m` the half-open buckets between consecutive
edges contain `p` exactly once (the buckets partition the price range). -/
theorem price_bucket_partition (m p : ℚ) (hp : 0 < p) (hpm : p ≤ m) :
    (m ≤ 50000 → price_bucket_edges m = [0, 10000, 20000, 30000, 40000, 50000, m]) ∧
    (¬(m ≤ 50000) → m ≤ 100000 →
      price_bucket_edges m = [0, 20000, 40000, 60000, 80000, 100000, m]) ∧
    (¬(m ≤ 100000) → price_bucket_edges m = [0, 50000, 100000, 200000, 500000, m]) ∧
    ∃! i, inBucket m i p := by
  refine ⟨fun h1 => by simp [price_bucket_edges, h1],
    fun h1 h2 => by simp [price_bucket_edges, h1, h2],
    fun h2 => by
      have h1 : ¬(m ≤ 50000) := fun h => h2 (h.trans (by norm_num : (50000 : ℚ) ≤ 100000))
      simp [price_bucket_edges, h1, h2],
    ?_⟩
  by_cases h1 : m ≤ 50000
  · exact bucket_exists_unique_ladderA m p hp hpm h1
  · by_cases h2 : m ≤ 100000
    · exact bucket_exists_unique_ladderB m p hp hpm h1 h2
    · exact bucket_exists_unique_ladderC m p hp hpm h2

theorem price_bucket_partition_witness :
    (0 : ℚ) < 12345 ∧ (12345 : ℚ) ≤ 45000 ∧
    ((45000 : ℚ) ≤ 50000 →
      price_bucket_edges 45000 = [0, 10000, 20000, 30000, 40000, 50000, 45000]) ∧
    ∃! i, inBucket 45000 i 12345 := by
  have h := price_bucket_partition 45000 12345 (by norm_num) (by norm_num)
  exact ⟨by norm_num, by norm_num, h.1, h.2.2.2⟩

theorem parseQuoted_escape (s : List Char) : ∀ (rest : List Char) (n : Nat),
    (escapeQuotes s).length + 1 ≤ n →
    rest.head? ≠ some '"' →
    parseQuoted n (escapeQuotes s ++ '"' :: rest) = (s, rest) := by
  induction s with
  | nil =>
    intro rest n hn hrest
    obtain ⟨m, rfl⟩ : ∃ m, n = m + 1 := ⟨n - 1, by omega⟩
    cases rest with
    | nil => simp [escapeQuotes, parseQuoted]
    | cons d r2 =>
      have hd : (d == '"') = false := by
        have : d ≠ '"' := fun h => hrest (by rw [h]; rfl)
        simpa using this
      simp [escapeQuotes, parseQuoted, hd]
  | cons c s' ih =>
    intro rest n hn hrest
    by_cases hc : c = '"'
    · subst hc
      have hlen : (escapeQuotes ('"' :: s')).length = (escapeQuotes s').length + 2 := by
        simp [escapeQuotes]
      obtain ⟨m, rfl⟩ : ∃ m, n = m + 1 := ⟨n - 1, by omega⟩
      have hm : (escapeQuotes s').length + 1 ≤ m := by
        rw [hlen] at hn; omega
      simp only [escapeQuotes, if_pos (by rfl : ('"' == '"') = true), List.cons_append]
      simp [parseQuoted, ih rest m hm hrest]
    · have hc' : (c == '"') = false := by simpa using hc
      have hlen : (escapeQuotes (c :: s')).length = (escapeQuotes s').length + 1 := by
        simp [escapeQuotes, hc']
      obtain ⟨m, rfl⟩ : ∃ m, n = m + 1 := ⟨n - 1, by omega⟩
      have hm : (escapeQuotes s').length + 1 ≤ m := by
        rw [hlen] at hn; omega
      simp only [escapeQuotes, hc', Bool.false_eq_true, if_false, List.cons_append]
      simp [parseQuoted, hc', ih rest m hm hrest]

theorem span_unquoted (s : List Char) (rest : List Char)
    (hs : ∀ c ∈ s, isDelim c = false)
    (hrest : restOk rest) :
    (s ++ rest).takeWhile (fun c => !isDelim c) = s ∧
    (s ++ rest).dropWhile (fun c => !isDelim c) = rest := by
  induction s with
  | nil =>
    cases rest with
    | nil => simp
    | cons c r2 =>
      have hc : isDelim c = true := hrest
      simp [List.takeWhile, List.dropWhile, hc]
  | cons c s' ih =>
    have hc : isDelim c = false := hs c (by simp)
    have ih' := ih (fun d hd => hs d (by simp [hd]))
    simp [List.takeWhile_cons, List.dropWhile_cons, hc, ih'.1, ih'.2]

theorem needsQuote_false_no_delim (s : List Char) (h : needsQuote s = false) :
    ∀ c ∈ s, isDelim c = false := by
  intro c hc
  simp only [needsQuote, List.any_eq_false] at h
  have := h c hc
  simp only [isDelim]
  cases hcq : c == ','
  · cases hnl : c == '\n'
    · rfl
    · simp [hcq, hnl] at this
  · simp [hcq] at this

theorem needsQuote_false_no_quote (s : List Char) (h : needsQuote s = false) :
    ∀ c ∈ s, (c == '"') = false := by
  intro c hc
  simp only [needsQuote, List.any_eq_false] at h
  have := h c hc
  cases hq : c == '"'
  · rfl
  · simp [hq] at this

theorem restOk_not_quote (rest : List Char) (h : restOk rest) :
    rest.head? ≠ some '"' := by
  cases rest with
  | nil => simp
  | cons c r2 =>
    have hc : isDelim c = true := h
    intro hh
    have : c = '"' := by simpa using hh
    subst this
    simp [isDelim] at hc

theorem parseCell_csvCell (s rest : List Char) (n : Nat)
    (hn : (csvCell s).length ≤ n)
    (hrest : restOk rest) :
    parseCell n (csvCell s ++ rest) = (s, rest) := by
  by_cases hq : needsQuote s = true
  · have hc : csvCell s = '"' :: (escapeQuotes s ++ ['"']) := by
      simp [csvCell, hq]
    rw [hc]
    have hlen : (csvCell s).length = (escapeQuotes s).length + 2 := by
      simp [hc]
    have hfuel : (escapeQuotes s).length + 1 ≤ n := by omega
    simp only [List.cons_append, List.append_assoc, List.singleton_append]
    simp [parseCell, parseQuoted_escape s rest n hfuel (restOk_not_quote rest hrest)]
  · have hq' : needsQuote s = false := by simpa using hq
    have hc : csvCell s = s := by simp [csvCell, hq']
    rw [hc]
    have hspan := span_unquoted s rest (needsQuote_false_no_delim s hq') hrest
    cases hs : s with
    | nil =>
      cases rest with
      | nil => simp [parseCell]
      | cons c r2 =>
        have hcd : isDelim c = true := hrest
        have hcq : (c == '"') = false := by
          cases hq2 : c == '"'
          · rfl
          · have : c = '"' := by simpa using hq2
            subst this
            simp [isDelim] at hcd
        subst hs
        simp [parseCell, hcq, List.takeWhile, List.dropWhile, hcd]
    | cons c s' =>
      have hcq : (c == '"') = false :=
        needsQuote_false_no_quote s hq' c (by simp [hs])
      subst hs
      rw [List.cons_append]
      simp only [parseCell, hcq, Bool.false_eq_true, if_false]
      rw [← List.cons_append]
      exact Prod.ext (by simpa using hspan.1) (by simpa using hspan.2)

theorem parseRecord_csvLine (r : List (List Char)) : ∀ (rest : List Char) (n : Nat),
    r ≠ [] →
    (csvLine r).length + 1 ≤ n →
    parseRecord n (csvLine r ++ '\n' :: rest) = (r, rest) := by
  induction r with
  | nil => intro rest n h; exact absurd rfl h
  | cons c r' ih =>
    intro rest n _ hn
    obtain ⟨m, rfl⟩ : ∃ m, n = m + 1 := ⟨n - 1, by omega⟩
    cases hr' : r' with
    | nil =>
      subst hr'
      have hline : csvLine [c] = csvCell c := rfl
      rw [hline] at hn ⊢
      have hcell := parseCell_csvCell c ('\n' :: rest) (m + 1)
        (by omega) (by simp [restOk, isDelim])
      simp only [parseRecord, hcell]
      simp
    | cons c2 r'' =>
      subst hr'
      have hline : csvLine (c :: c2 :: r'') = csvCell c ++ ',' :: csvLine (c2 :: r'') := rfl
      rw [hline] at hn ⊢
      have hcell := parseCell_csvCell c (',' :: (csvLine (c2 :: r'') ++ '\n' :: rest)) (m + 1)
        (by simp at hn ⊢; omega) (by simp [restOk, isDelim])
      have hihn : (csvLine (c2 :: r'')).length + 1 ≤ m := by
        simp at hn; omega
      have hih := ih rest m (by simp) hihn
      rw [List.append_assoc, List.cons_append]
      simp only [parseRecord]
      rw [hcell]
      simp [hih]

theorem parseRows_csvText (t : List (List (List Char))) : ∀ (n : Nat),
    (∀ r ∈ t, r ≠ []) →
    (csvText t).length ≤ n →
    parseRows n (csvText t) = t := by
  induction t with
  | nil =>
    intro n _ _
    cases n <;> simp [parseRows, csvText]
  | cons r t' ih =>
    intro n ht hn
    have htext : csvText (r :: t') = csvLine r ++ '\n' :: csvText t' := by
      simp [csvText]
    rw [htext] at hn ⊢
    obtain ⟨m, rfl⟩ : ∃ m, n = m + 1 := ⟨n - 1, by simp at hn; omega⟩
    have hrec := parseRecord_csvLine r (csvText t') (m + 1) (ht r (by simp))
      (by simp at hn ⊢; omega)
    have hih := ih m (fun q hq => ht q (by simp [hq])) (by simp at hn; omega)
    rcases he : csvLine r ++ '\n' :: csvText t' with _ | ⟨c, cs⟩
    · simp at he
    · rw [← he]
      rw [he]
      simp only [parseRows]
      rw [← he, hrec, hih]

/-- Claim C9: exporting a table with `convert_df` produces CSV text led by
a byte-order mark whose re-parse restores the header and every row exactly
— same row count and same values in every originally-present column. -/
theorem convert_df_roundtrip (header : List (List Char)) (rows : List (List (List Char)))
    (hheader : header ≠ [])
    (hrows : ∀ r ∈ rows, r.length = header.length) :
    parseCsv (convert_df header rows) = header :: rows ∧
    (parseCsv (convert_df header rows)).length = rows.length + 1 ∧
    (convert_df header rows).head? = some bomChar := by
  have hne : ∀ r ∈ (header :: rows), r ≠ [] := by
    intro r hr
    rcases List.mem_cons.mp hr with rfl | hr
    · exact hheader
    · intro hnil
      have hlen := hrows r hr
      rw [hnil] at hlen
      exact hheader (List.eq_nil_of_length_eq_zero hlen.symm)
  have hmain : parseCsv (convert_df header rows) = header :: rows := by
    unfold convert_df parseCsv
    simp only [beq_self_eq_true, if_true]
    exact parseRows_csvText (header :: rows) (csvText (header :: rows)).length hne le_rfl
  exact ⟨hmain, by rw [hmain]; simp, rfl⟩

theorem convert_df_roundtrip_witness :
    parseCsv (convert_df [['i', 'd'], ['n', 'a', 'm', 'e']]
        [[['1'], ['a', ',', 'b']], [['2'], ['s', '"', 'x', '\n', 'y']]]) =
      [[['i', 'd'], ['n', 'a', 'm', 'e']],
       [['1'], ['a', ',', 'b']], [['2'], ['s', '"', 'x', '\n', 'y']]] :=
  (convert_df_roundtrip [['i', 'd'], ['n', 'a', 'm', 'e']]
    [[['1'], ['a', ',', 'b']], [['2'], ['s', '"', 'x', '\n', 'y']]]
    (by decide) (by decide)).1
